import Mathlib

/-!
Verification of the multi-source product/deal scraping pipeline
(`src/scraper.js`, `src/parsers.js`, `src/sources.js`, `server.js`).

Modelling conventions for the JavaScript source:
* JS numbers are idealised as rationals (`ℚ`); `Number(x.toFixed(2))` is
  modelled by `round2` (round half-up at the second decimal).  Binary
  floating-point artefacts are outside the model.
* A JS value that may be `null`/`undefined` is an `Option`; JS numeric
  truthiness (`!x` is true for `0`, `null`, `undefined`) is `truthyNum`,
  string truthiness (`''` is falsy) is `jsStrTruthy`.
* `parseFloat` restricted to strings of digits and dots (the only shape it
  receives after the `[^0-9.]` strip) is modelled exactly by `parseFloatQ`,
  including its `NaN` result on inputs with no leading numeral.
-/

/-- JS numeric truthiness for a nullable number: `null`/`undefined` and `0`
are falsy, every other number is truthy. -/
def truthyNum : Option ℚ → Bool
  | none => false
  | some q => q != 0

/-- JS string truthiness for a nullable string: `null`/`undefined` and the
empty string are falsy. -/
def jsStrTruthy : Option String → Bool
  | none => false
  | some s => s != ""

/-- JS `a || b` for a nullable string `a` and string fallback `b`. -/
def jsStrOr (a : Option String) (b : String) : String :=
  match a with
  | none => b
  | some s => if s = "" then b else s

/-- JS `String.prototype.trim`: drop whitespace from both ends (structural
model of `String.trim`). -/
def jsTrim (s : String) : String :=
  String.mk (((s.toList.dropWhile Char.isWhitespace).reverse.dropWhile Char.isWhitespace).reverse)

/-- `Number(x.toFixed(2))`: round to the nearest multiple of 1/100
(half away from the smaller value, as for the positive prices handled here). -/
def round2 (q : ℚ) : ℚ := (round (q * 100) : ℤ) / 100

/-- A rational carries at most 2 decimal places: rounding it to 2 decimals
leaves it unchanged. -/
def isRounded2 (q : ℚ) : Prop := round2 q = q

/-- The `value.replace(/[^0-9.]/g, '')` strip shared by both price parsers:
keep only digits and decimal points. -/
def stripNonPrice (value : String) : String :=
  String.mk (value.toList.filter (fun c => c.isDigit || c = '.'))

/-- Numeric value of a digit string (most significant digit first). -/
def natOfDigits (ds : List Char) : Nat :=
  ds.foldl (fun n c => 10 * n + (c.toNat - 48)) 0

/-- JS `parseFloat` on a string made only of digits and `.` (the shape
produced by `stripNonPrice`): parse the longest prefix
`digits [ '.' digits ]`; the result is `none` (JS `NaN`) when that prefix
contains no digit (e.g. `""`, `"."`, `"..5"`). -/
def parseFloatQ (s : String) : Option ℚ :=
  let cs := s.toList
  let intPart := cs.takeWhile Char.isDigit
  let rest := cs.dropWhile Char.isDigit
  let fracPart :=
    match rest with
    | '.' :: r => r.takeWhile Char.isDigit
    | _ => []
  if intPart.isEmpty && fracPart.isEmpty then none
  else some ((natOfDigits intPart : ℚ) + (natOfDigits fracPart : ℚ) / 10 ^ fracPart.length)

/-- Result of a JS price parser: `null`, `NaN`, or a number. -/
inductive PriceResult
  | null
  | nan
  | num (q : ℚ)
deriving DecidableEq

/-- `parsePrice` from `src/scraper.js`: empty input gives `null`; otherwise
strip everything but digits/dots; empty strip gives `null`; otherwise
`Number(parseFloat(numeric).toFixed(2))` (which is `NaN` when `parseFloat`
produced `NaN`). -/
def parsePrice (value : String) : PriceResult :=
  if value = "" then PriceResult.null
  else
    let numeric := stripNonPrice value
    if numeric = "" then PriceResult.null
    else
      match parseFloatQ numeric with
      | none => PriceResult.nan
      | some q => PriceResult.num (round2 q)

/-- `parsePriceString` from `src/parsers.js`: strip everything but
digits/dots; empty strip gives `null`; otherwise `parseFloat(numeric)`
unrounded. -/
def parsePriceString (value : String) : PriceResult :=
  let numeric := stripNonPrice value
  if numeric = "" then PriceResult.null
  else
    match parseFloatQ numeric with
    | none => PriceResult.nan
    | some q => PriceResult.num q

/-- `clampNumber` from `src/scraper.js`: `Number(value)` non-finite (modelled
as `none`) falls back to the minimum, otherwise
`Math.max(min, Math.min(max, numeric))`. -/
def clampNumber (value : Option ℚ) (lo hi : ℚ) : ℚ :=
  match value with
  | none => lo
  | some numeric => max lo (min hi numeric)

/-- The effective target count used by the scraper
(`clampNumber(options.number ?? 10, 1, MAX_PRODUCTS)` with
`MAX_PRODUCTS = 500`).  The outer `Option` is presence of `options.number`
(`??` substitutes 10), the inner `Option` is finiteness of the number. -/
def effectiveTarget (number : Option (Option ℚ)) : ℚ :=
  clampNumber (number.getD (some 10)) 1 500

/-!  Data model: parser output records and the canonical record schema. -/

/-- A site-specific record as produced by the HTML parsers in
`src/parsers.js` (`parseAmazonResults`, `parseFashionGrid`,
`parseEbayDeals`).  Fields a parser does not supply are `none`.  (The JSON
feed extractor's records are modelled separately as `FeedRecord`, whose
original price may be non-finite.) -/
structure ParsedRecord where
  id : String := ""
  title : String := ""
  url : Option String := none
  price : Option ℚ := none
  originalPrice : Option ℚ := none
  rating : Option ℚ := none
  reviewsCount : Option ℚ := none
  thumbnail : Option String := none
  highResImage : Option String := none
  shortDescription : Option String := none
  fullDescription : Option String := none
  isSponsored : Bool := false
  isAmazonChoice : Bool := false
  source : Option String := none
deriving DecidableEq

/-- The internal product shape handed to `formatProductRecord`
(`src/scraper.js`). -/
structure RawProduct where
  asin : String := ""
  title : String := ""
  url : Option String := none
  price : Option ℚ := none
  beforeDiscount : Option ℚ := none
  rating : Option ℚ := none
  reviewsCount : Option ℚ := none
  thumbnail : String := ""
  highResImage : Option String := none
  shortDescription : String := ""
  fullDescription : String := ""
  isSponsored : Bool := false
  isAmazonChoice : Bool := false
  isDiscounted : Bool := false
  source : String := ""
deriving DecidableEq

/-- The public output schema of `formatProductRecord` (`src/scraper.js`).
JS empty-string placeholders for absent numbers are modelled as `none`. -/
structure CanonicalRecord where
  amazonId : String
  title : String
  thumbnail : String
  highResImage : String
  url : Option String
  source : String
  isDiscounted : Bool
  isSponsored : Bool
  isAmazonChoice : Bool
  price : Option ℚ
  beforeDiscount : Option ℚ
  reviewsCount : Option ℚ
  rating : Option ℚ
  score : Option ℚ
  savings : ℚ
  shortDescription : String
  fullDescription : String
deriving DecidableEq

/-- `formatProductRecord` from `src/scraper.js` (lines 355-384): passes the
input `isDiscounted` flag through via `Boolean(...)`, computes `savings` from
the truthiness test `price && before && before > price`, and `score` from
`rating && reviewsCount`. -/
def formatProductRecord (product : RawProduct) : CanonicalRecord :=
  let price := product.price
  let before := product.beforeDiscount
  let savings :=
    if truthyNum price && truthyNum before && decide (before.getD 0 > price.getD 0) then
      round2 (before.getD 0 - price.getD 0)
    else 0
  let score :=
    if truthyNum product.rating && truthyNum product.reviewsCount then
      some (round2 (product.rating.getD 0 * product.reviewsCount.getD 0))
    else none
  { amazonId := product.asin
    title := product.title
    thumbnail := product.thumbnail
    highResImage := jsStrOr product.highResImage product.thumbnail
    url := product.url
    source := product.source
    isDiscounted := product.isDiscounted
    isSponsored := product.isSponsored
    isAmazonChoice := product.isAmazonChoice
    price := price
    beforeDiscount := before
    reviewsCount := product.reviewsCount
    rating := product.rating
    score := score
    savings := savings
    shortDescription := product.shortDescription
    fullDescription := product.fullDescription }

/-- The per-record mapping of `scrapePredefinedSource` (`src/scraper.js`
lines 133-152): adapts a parser record to the `formatProductRecord` input,
computing `isDiscounted` as
`record.originalPrice && record.price ? record.originalPrice > record.price : false`. -/
def predefinedToRaw (record : ParsedRecord) (sourceLabel : String) : RawProduct :=
  { asin := record.id
    title := record.title
    url := record.url
    price := record.price
    beforeDiscount := record.originalPrice
    rating := record.rating
    reviewsCount := record.reviewsCount
    thumbnail := jsStrOr record.thumbnail ""
    highResImage := some (jsStrOr record.highResImage (jsStrOr record.thumbnail ""))
    shortDescription := jsStrOr record.shortDescription ""
    fullDescription := jsStrOr record.fullDescription ""
    isSponsored := record.isSponsored
    isAmazonChoice := record.isAmazonChoice
    isDiscounted :=
      if truthyNum record.originalPrice && truthyNum record.price then
        decide (record.originalPrice.getD 0 > record.price.getD 0)
      else false
    source := jsStrOr record.source sourceLabel }

/-!  Pagination & accumulation controller (`scrapeAmazonKeywordSearch`). -/

/-- `MAX_PAGES` from `src/scraper.js`. -/
def MAX_PAGES : Nat := 20

/-- Union of the page results for pages `page, page+1, ..., page+n-1`. -/
def unionFrom (pages : Nat → List α) (page : Nat) : Nat → List α
  | 0 => []
  | n + 1 => pages page ++ unionFrom pages (page + 1) n

/-- The `while` loop of `scrapeAmazonKeywordSearch` (`src/scraper.js`
lines 53-70).  `pages` abstracts `parseSearchResults ∘ fetchHtml` per page
number.  The loop runs while `collected.length < target && page <= MAX_PAGES`,
stops on an empty page, and appends each page's results truncated at the
target count (the inner `for` pushes and breaks once `length >= target`).
`fuel` only bounds the recursion; it is called with `MAX_PAGES + 1`, which the
`page ≤ MAX_PAGES` guard never exhausts. -/
def crawlFrom (pages : Nat → List α) (target : Nat) : Nat → Nat → List α → List α
  | 0, _, collected => collected
  | fuel + 1, page, collected =>
    if collected.length < target ∧ page ≤ MAX_PAGES then
      if (pages page).isEmpty then collected
      else
        crawlFrom pages target fuel (page + 1)
          (collected ++ (pages page).take (target - collected.length))
    else collected

/-- `scrapeAmazonKeywordSearch`'s collection phase plus its
"no products parsed" check (`src/scraper.js` lines 49-74): crawl from page 1,
then fail iff nothing at all was collected. -/
def scrapeAmazonCrawl (pages : Nat → List α) (target : Nat) : Except String (List α) :=
  let collected := crawlFrom pages target (MAX_PAGES + 1) 1 []
  if collected.isEmpty then Except.error "No products were parsed from the Amazon response"
  else Except.ok collected

/-!  Proxy fetch gateway (`fetchHtml`) body normalization. -/

/-- A parsed JSON value, as returned by the platform `JSON.parse`.  Only the
shape matters to `fetchHtml`; the parse itself is the JS engine's and is
passed in as a function parameter below. -/
inductive JsonValue
  | str (s : String)
  | num (q : ℚ)
  | boolean (b : Bool)
  | null
  | arr (items : List JsonValue)
  | obj (fields : List (String × JsonValue))

/-- JS truthiness of a parsed JSON value: objects and arrays are always
truthy; `null`, `false`, `0` and `""` are falsy. -/
def jsTruthy : JsonValue → Bool
  | JsonValue.str s => s != ""
  | JsonValue.num q => q != 0
  | JsonValue.boolean b => b
  | JsonValue.null => false
  | JsonValue.arr _ => true
  | JsonValue.obj _ => true

/-- `trimmed.startsWith(c)` for the single-character prefixes the gateway
tests: true iff the first character is `c`. -/
def headIs (s : String) (c : Char) : Bool :=
  match s.toList with
  | [] => false
  | c2 :: _ => c2 = c

/-- Property access `payload.content`: defined only on objects. -/
def contentField : JsonValue → Option JsonValue
  | JsonValue.obj fields => (fields.find? (fun p => p.1 = "content")).map (fun p => p.2)
  | _ => none

/-- `payload.content` when it exists and is a string
(`typeof payload.content === 'string'`). -/
def contentString (v : JsonValue) : Option String :=
  match contentField v with
  | some (JsonValue.str c) => some c
  | _ => none

/-- The body of `fetchHtml`'s `try` block after a successful `JSON.parse`
(`src/scraper.js` lines 185-191): return the string `content` field of a
truthy payload, else the payload itself when it is a string, else fall
through to the raw body. -/
def handleParsed (payload : JsonValue) (rawBody : String) : String :=
  match (if jsTruthy payload then contentString payload else none) with
  | some c => c
  | none =>
    match payload with
    | JsonValue.str s => s
    | _ => rawBody

/-- The response-body normalization of `fetchHtml` (`src/scraper.js`
lines 177-197), after the HTTP-status check: an empty trimmed body is an
error; a body whose trimmed form starts with `{` or `[` is tentatively
parsed as JSON (`jsonParse` abstracts the platform `JSON.parse`, `none`
being a parse exception) and handled by `handleParsed`; everything else is
returned raw. -/
def normalizeBody (jsonParse : String → Option JsonValue) (rawBody : String) :
    Except String String :=
  let trimmed := jsTrim rawBody
  if trimmed = "" then Except.error "ScrapingAnt returned an empty response body"
  else if headIs trimmed '\x7b' || headIs trimmed '[' then
    match jsonParse trimmed with
    | some payload => Except.ok (handleParsed payload rawBody)
    | none => Except.ok rawBody
  else Except.ok rawBody

/-!  Feed-record extractor (`parseDummyJsonProducts`). -/

/-- One item of the trusted JSON feed (`{id, title, price,
discountPercentage, thumbnail, description}`).  `none` models an absent
field (`Number(undefined)` is `NaN`, which the extractor discards via
`!price`). -/
structure FeedItem where
  id : Nat := 0
  title : String := ""
  price : Option ℚ := none
  discountPercentage : Option ℚ := none
  thumbnail : String := ""
  description : Option String := none
deriving DecidableEq

/-- A JS number that may be non-finite: the feed extractor's division
`price / (1 - discount / 100)` at `discount = 100` yields `Infinity`
(`-Infinity` for a negative price, `NaN` for `0 / 0`). -/
inductive JsNum
  | num (q : ℚ)
  | posInf
  | negInf
  | nan
deriving DecidableEq

/-- JS truthiness of such a value: `0` and `NaN` are falsy; infinities and
every other number are truthy. -/
def jsNumTruthy : JsNum → Bool
  | JsNum.num q => q != 0
  | JsNum.posInf => true
  | JsNum.negInf => true
  | JsNum.nan => false

/-- JS `a <= b` for such a value against a finite number: false for `NaN`
and `Infinity`, true for `-Infinity`. -/
def jsLeQ : JsNum → ℚ → Bool
  | JsNum.num q, b => q ≤ b
  | JsNum.posInf, _ => false
  | JsNum.negInf, _ => true
  | JsNum.nan, _ => false

/-- `Number(x.toFixed(2))` on such a value: `Infinity` and `NaN` pass
through unchanged (`Infinity.toFixed(2)` is `"Infinity"`). -/
def jsRound2 : JsNum → JsNum
  | JsNum.num q => JsNum.num (round2 q)
  | x => x

/-- The original price derived by `parseDummyJsonProducts`:
`discount > 0 ? price / (1 - discount / 100) : price * 1.25`, with JS
division semantics at a zero divisor (`discount = 100`): a positive price
gives `Infinity`, a negative one `-Infinity`, zero gives `NaN`. -/
def impliedOriginalPrice (price discount : ℚ) : JsNum :=
  if 0 < discount then
    if 1 - discount / 100 = 0 then
      if 0 < price then JsNum.posInf
      else if price < 0 then JsNum.negInf
      else JsNum.nan
    else JsNum.num (price / (1 - discount / 100))
  else JsNum.num (price * (5 / 4))

/-- A record produced by the feed extractor; its original price may be
non-finite (see `impliedOriginalPrice`). -/
structure FeedRecord where
  id : String := ""
  title : String := ""
  url : String := ""
  price : ℚ := 0
  originalPrice : JsNum := JsNum.num 0
  thumbnail : String := ""
  source : String := ""
  shortDescription : String := ""
deriving DecidableEq

/-- The per-item body of `parseDummyJsonProducts` from `src/parsers.js`
(lines 105-127): derive an original price from the discount percentage (or a
synthetic 25% markup), discard the item when the price is falsy
(`!price`), the derived original price is falsy (`!originalPrice`, i.e. 0
or `NaN`), or it does not strictly exceed the price
(`originalPrice <= price`, false for `Infinity`). -/
def parseDummyItem (label : String) (product : FeedItem) : Option FeedRecord :=
  match product.price with
  | none => none
  | some price =>
    if price = 0 ∨
        jsNumTruthy (impliedOriginalPrice price (product.discountPercentage.getD 0)) = false ∨
        jsLeQ (impliedOriginalPrice price (product.discountPercentage.getD 0)) price = true then
      none
    else
      some { id := toString product.id
             title := product.title
             url := "https://dummyjson.com/products/" ++ toString product.id
             price := price
             originalPrice := impliedOriginalPrice price (product.discountPercentage.getD 0)
             thumbnail := product.thumbnail
             source := label
             shortDescription := product.description.getD "" }

/-- `parseDummyJsonProducts` over a whole feed: `.map(...).filter(Boolean)`. -/
def parseDummyJsonProducts (label : String) (products : List FeedItem) : List FeedRecord :=
  products.filterMap (parseDummyItem label)

/-- The per-item body of the `server.js` copy of `parseDummyJsonProducts`
(lines 190-210): identical decision logic, but the emitted record stores
`originalPrice` rounded to 2 decimals (`Number(originalPrice.toFixed(2))`),
and carries no `id`/`thumbnail`/`description` fields. -/
def serverParseDummyItem (label : String) (product : FeedItem) : Option FeedRecord :=
  match product.price with
  | none => none
  | some price =>
    if price = 0 ∨
        jsNumTruthy (impliedOriginalPrice price (product.discountPercentage.getD 0)) = false ∨
        jsLeQ (impliedOriginalPrice price (product.discountPercentage.getD 0)) price = true then
      none
    else
      some { title := product.title
             url := "https://dummyjson.com/products/" ++ toString product.id
             price := price
             originalPrice :=
               jsRound2 (impliedOriginalPrice price (product.discountPercentage.getD 0))
             source := label }

/-!  Detail enrichment stage (`enrichWithDetails`). -/

/-- A product collected from the search pages (output of
`parseSearchResults` in `src/scraper.js`), before/after enrichment.
`fullDescription`/`detailError` are unset until the enrichment stage. -/
structure AmazonItem where
  asin : String := ""
  title : String := ""
  url : String := ""
  price : Option ℚ := none
  beforeDiscount : Option ℚ := none
  rating : Option ℚ := none
  reviewsCount : Option ℚ := none
  thumbnail : String := ""
  highResImage : Option String := none
  isSponsored : Bool := false
  isAmazonChoice : Bool := false
  isDiscounted : Bool := false
  shortDescription : String := ""
  fullDescription : Option String := none
  detailError : Option String := none
deriving DecidableEq

/-- The fields produced by `parseProductDetail` (`src/scraper.js`). -/
structure DetailData where
  shortDescription : String := ""
  fullDescription : String := ""
  highResImage : Option String := none
deriving DecidableEq

/-- The per-item task of `enrichWithDetails` (`src/scraper.js` lines
291-309).  `fetchDetail` abstracts `parseProductDetail ∘ fetchHtml` on the
item's detail page; `Except.error` is a thrown fetch/parse failure.  On
success the detail fields are spread over the item; on failure the item
survives with its original thumbnail as high-res image
(`product.highResImage || product.thumbnail`), an empty full description,
its existing short description, and the failure message in `detailError`. -/
def enrichOne (fetchDetail : AmazonItem → Except String DetailData)
    (product : AmazonItem) : AmazonItem :=
  match fetchDetail product with
  | Except.ok detail =>
    { product with
      shortDescription := detail.shortDescription
      fullDescription := some detail.fullDescription
      highResImage := detail.highResImage }
  | Except.error msg =>
    { product with
      shortDescription := product.shortDescription
      fullDescription := some ""
      highResImage :=
        if jsStrTruthy product.highResImage then product.highResImage
        else some product.thumbnail
      detailError := some msg }

/-- `enrichWithDetails` (`src/scraper.js` lines 273-318).  The p-limit
bounded worker pool feeds `Promise.all`, which writes each task's result to
the slot of its input index, so the batch is modelled as an index-preserving
map; completion timing does not influence the value. -/
def enrichWithDetails (fetchDetail : AmazonItem → Except String DetailData)
    (products : List AmazonItem) : List AmazonItem :=
  products.map (enrichOne fetchDetail)

/-!  Server deal pipeline (`server.js`). -/

/-- A record as produced by the `server.js` parsers and handed to
`evaluateDeal`. -/
structure DealInput where
  title : String := ""
  url : Option String := none
  price : Option ℚ := none
  originalPrice : Option ℚ := none
  source : String := ""
deriving DecidableEq

/-- An element of the `/api/deals` response list: either an evaluated deal
or the `Feed unavailable` placeholder. -/
structure Deal where
  source : String
  title : String
  price : Option ℚ
  originalPrice : Option ℚ
  roi : ℚ
  potentialProfit : Option ℚ
  url : Option String
  note : Option String
  error : Bool
deriving DecidableEq

/-- A `server.js` `SOURCES` entry (label and URL; the fetch+parse outcome is
abstracted per source in `apiDeals`). -/
structure ServerSource where
  id : String := ""
  label : String := ""
  url : String := ""
deriving DecidableEq

/-- `evaluateDeal` from `server.js` (lines 218-228): `null` unless the deal
exists, both prices are truthy, and the original strictly exceeds the
price; otherwise augment with `roi = (original − price) / price` and
`potentialProfit = original − price`, each rounded to 2 decimals. -/
def evaluateDeal (deal : Option DealInput) : Option Deal :=
  match deal with
  | none => none
  | some d =>
    if truthyNum d.price && truthyNum d.originalPrice &&
        decide (d.price.getD 0 < d.originalPrice.getD 0) then
      some { source := d.source
             title := d.title
             price := d.price
             originalPrice := d.originalPrice
             roi := round2 ((d.originalPrice.getD 0 - d.price.getD 0) / d.price.getD 0)
             potentialProfit := some (round2 (d.originalPrice.getD 0 - d.price.getD 0))
             url := d.url
             note := none
             error := false }
    else none

/-- The placeholder record pushed when a source's pipeline throws
(`server.js` lines 67-76). -/
def placeholderDeal (src : ServerSource) : Deal :=
  { source := src.label
    title := "Feed unavailable"
    price := none
    originalPrice := none
    roi := 0
    potentialProfit := none
    url := some src.url
    note := some "Could not load data. Check source manually."
    error := true }

/-- One source's contribution to `/api/deals` (`server.js` lines 58-78):
on success, map each parsed record (with the source label attached) through
`evaluateDeal` and keep the non-null results with `roi >= minRoi`; on any
failure, the single placeholder record. -/
def sourceDeals (minRoi : ℚ) (src : ServerSource)
    (outcome : Except String (List DealInput)) : List Deal :=
  match outcome with
  | Except.ok parsed =>
    ((parsed.map (fun d => evaluateDeal (some { d with source := src.label }))).filterMap id).filter
      (fun deal => decide (minRoi ≤ deal.roi))
  | Except.error _ => [placeholderDeal src]

/-- Descending-ROI order used by `deals.sort((a, b) => b.roi - a.roi)`. -/
abbrev roiGE (a b : Deal) : Prop := b.roi ≤ a.roi

instance : IsTotal Deal roiGE := ⟨fun a b => le_total b.roi a.roi⟩

instance : IsTrans Deal roiGE := ⟨fun _ _ _ h1 h2 => le_trans h2 h1⟩

/-- The `/api/deals` aggregation (`server.js` lines 56-88): each source's
retrieval outcome is independent (`outcomes` pairs each source with its
fetch+parse result); contributions are flattened and sorted by descending
ROI.  The ECMAScript sort is modelled by insertion sort, which realises the
comparator's ordering. -/
def apiDeals (minRoi : ℚ)
    (outcomes : List (ServerSource × Except String (List DealInput))) : List Deal :=
  List.insertionSort roiGE ((outcomes.map (fun p => sourceDeals minRoi p.1 p.2)).flatten)

/-!  Source registry (`src/sources.js`) and `scrapeProducts` dispatch. -/

/-- One `SOURCE_DEFINITIONS` entry from `src/sources.js`. -/
structure SourceDefinition where
  id : String
  label : String
  type : String
  requiresKeyword : Bool := false
  url : Option String := none
deriving DecidableEq

/-- `DEFAULT_SOURCE` from `src/sources.js`. -/
def DEFAULT_SOURCE : String := "amazon-search"

/-- The static `SOURCE_DEFINITIONS` table from `src/sources.js`. -/
def SOURCE_DEFINITIONS : List SourceDefinition :=
  [ { id := "amazon-search", label := "Amazon keyword search", type := "amazon-search",
      requiresKeyword := true },
    { id := "amazon-tech", label := "Amazon · Tech Deals", type := "html",
      url := some "https://www.amazon.com/s?k=clearance+electronics+deals" },
    { id := "amazon-fashion", label := "Amazon · Fashion Deals", type := "html",
      url := some "https://www.amazon.com/s?k=designer+fashion+sale" },
    { id := "ebay-deals", label := "eBay Daily Deals", type := "html",
      url := some "https://www.ebay.com/globaldeals" },
    { id := "fashion-api-mens", label := "Mens Footwear Feed", type := "json",
      url := some "https://dummyjson.com/products/category/mens-shoes" },
    { id := "fashion-api-womens", label := "Womens Dresses Feed", type := "json",
      url := some "https://dummyjson.com/products/category/womens-dresses" } ]

/-- `listSources` from `src/sources.js` (a copy of the table). -/
def listSources : List SourceDefinition := SOURCE_DEFINITIONS

/-- `getSourceDefinition` from `src/sources.js`: first table entry with the
given id. -/
def getSourceDefinition (id : String) : Option SourceDefinition :=
  SOURCE_DEFINITIONS.find? (fun source => source.id = id)

/-- The source-id resolution of `scrapeProducts` (`src/scraper.js` line 17):
`(options.source || DEFAULT_SOURCE).trim() || DEFAULT_SOURCE`. -/
def resolveSourceId (optSource : Option String) : String :=
  let base :=
    match optSource with
    | none => DEFAULT_SOURCE
    | some s => if s = "" then DEFAULT_SOURCE else s
  let trimmed := jsTrim base
  if trimmed = "" then DEFAULT_SOURCE else trimmed

/-- The source lookup of `scrapeProducts` (`src/scraper.js` lines 16-25):
unknown identifiers raise a configuration error listing the ids of every
registered source. -/
def resolveSource (optSource : Option String) : Except String SourceDefinition :=
  let sourceId := resolveSourceId optSource
  match getSourceDefinition sourceId with
  | some source => Except.ok source
  | none =>
    Except.error
      ("Unknown source \"" ++ sourceId ++ "\". Available sources: " ++
        String.intercalate ", " (listSources.map (fun entry => entry.id)))

/-!  Concrete inputs used by the witnesses. -/

/-- A page feed where page 1 holds one record and page 2 is empty. -/
def onePageFeed : Nat → List Nat := fun n => if n = 1 then [7] else []

/-- A search item that already carries a srcset-derived high-res image. -/
def sampleItemHi : AmazonItem :=
  { asin := "B00Y", title := "Gadget", url := "https://amazon.com/dp/B00Y",
    thumbnail := "thumb.jpg", highResImage := some "srcset-hi.jpg" }

/-- A sample search item with no high-res image. -/
def sampleItem : AmazonItem :=
  { asin := "B00X", title := "Widget", url := "https://amazon.com/dp/B00X",
    thumbnail := "thumb.jpg", shortDescription := "short" }

/-- A JSON-parse stub returning the one envelope the witness exercises. -/
def sampleParse : String → Option JsonValue := fun s =>
  if s = "\x7b\"content\":\"<html></html>\"\x7d" then
    some (JsonValue.obj [("content", JsonValue.str "<html></html>")])
  else none

/-- A parser record with a present-but-zero price and a larger original
price. -/
def c1Bad : ParsedRecord := { price := some 0, originalPrice := some 5 }

/-- Feed item `{id:1, price:80, discountPercentage:20}` from the spec's
end-to-end example. -/
def feedItemA : FeedItem := { id := 1, title := "A", price := some 80, discountPercentage := some 20 }

/-- Feed item `{id:3, price:0}` from the spec's end-to-end example. -/
def feedItemZero : FeedItem := { id := 3, title := "C", price := some 0 }

/-- A feed item with a 100% discount: JS derives `Infinity` and keeps it. -/
def feedItem100 : FeedItem :=
  { id := 4, title := "D", price := some 10, discountPercentage := some 100 }

/-- A viable deal input: price 80, original price 100. -/
def dealEighty : DealInput :=
  { title := "g", price := some 80, originalPrice := some 100, source := "s" }

/-- A deal input with a present-but-zero price. -/
def dealZeroPrice : DealInput := { price := some 0, originalPrice := some 5 }

/-- A server source whose feed is down in the witness. -/
def srcDown : ServerSource := { id := "a", label := "A", url := "https://a.example" }

/-!  General lemmas about rounding and the float parser. -/

lemma round2_round2 (q : ℚ) : round2 (round2 q) = round2 q := by
  unfold round2
  have h : ((round (q * 100) : ℤ) : ℚ) / 100 * 100 = ((round (q * 100) : ℤ) : ℚ) := by
    field_simp
  rw [h, round_intCast]

lemma round2_nonneg (q : ℚ) (h : 0 ≤ q) : 0 ≤ round2 q := by
  unfold round2
  have h0 : (0 : ℤ) ≤ round (q * 100) := by
    rw [round_eq]
    exact Int.le_floor.mpr (by push_cast; linarith)
  have h1 : (0 : ℚ) ≤ ((round (q * 100) : ℤ) : ℚ) := Int.cast_nonneg.mpr h0
  linarith

lemma parseFloatQ_nonneg (s : String) (q : ℚ) (h : parseFloatQ s = some q) : 0 ≤ q := by
  unfold parseFloatQ at h
  simp only [] at h
  split_ifs at h
  simp only [Option.some.injEq] at h
  rw [← h]
  positivity

/-- C7: for every requested target count, the effective target used by the
scraper is clamped into [1, 500]: values above 500 become 500, values below
1 become 1, and a non-finite (non-numeric) input silently floors to 1. -/
theorem target_count_clamped (n : Option (Option ℚ)) :
    (n = some none → effectiveTarget n = 1) ∧
    (∀ q, n = some (some q) →
      (500 < q → effectiveTarget n = 500) ∧
      (q < 1 → effectiveTarget n = 1) ∧
      (1 ≤ q → q ≤ 500 → effectiveTarget n = q)) ∧
    1 ≤ effectiveTarget n ∧ effectiveTarget n ≤ 500 := by
  have hval : ∀ q : ℚ, effectiveTarget (some (some q)) = max 1 (min 500 q) := fun q => rfl
  refine ⟨fun h => by subst h; rfl, ?_, ?_, ?_⟩
  · rintro q rfl
    rw [hval]
    refine ⟨fun h => ?_, fun h => ?_, fun h1 h2 => ?_⟩
    · rw [min_eq_left (le_of_lt h), max_eq_right (by norm_num : (1 : ℚ) ≤ 500)]
    · rw [max_eq_left (le_trans (min_le_right _ _) (le_of_lt h))]
    · rw [min_eq_right h2, max_eq_right h1]
  · rcases n with _ | q
    · norm_num [effectiveTarget, clampNumber, min_def, max_def]
    · rcases q with _ | q
      · norm_num [effectiveTarget, clampNumber]
      · rw [hval]; exact le_max_left 1 _
  · rcases n with _ | q
    · norm_num [effectiveTarget, clampNumber, min_def, max_def]
    · rcases q with _ | q
      · norm_num [effectiveTarget, clampNumber]
      · rw [hval]; exact max_le (by norm_num) (min_le_left _ _)

/-- Witness for C7: a target of 1000 is clamped to 500, a target of 1/2 is
clamped to 1, and a non-finite value floors to 1. -/
theorem target_count_clamped_w :
    effectiveTarget (some (some 1000)) = 500 ∧
    effectiveTarget (some (some (1 / 2))) = 1 ∧
    effectiveTarget (some none) = 1 :=
  ⟨((target_count_clamped (some (some 1000))).2.1 1000 rfl).1 (by norm_num),
   ((target_count_clamped (some (some (1 / 2)))).2.1 (1 / 2) rfl).2.1 (by norm_num),
   (target_count_clamped (some none)).1 rfl⟩

/-- C2 counterexample: `parsePriceString` (the parsers-module half of the
claim) does not round: on `"1.555"` it returns 1.555, a value with three
decimal places, refuting "return a non-negative number rounded to exactly
2 decimal places" for that parser. -/
theorem price_parser_unrounded_counter :
    parsePriceString "1.555" = PriceResult.num (311 / 200) ∧ ¬ isRounded2 (311 / 200 : ℚ) := by
  constructor
  · have hs : stripNonPrice "1.555" = "1.555" := by decide
    have hf : parseFloatQ "1.555" = some (311 / 200) := by
      simp +decide [parseFloatQ, natOfDigits]
      norm_num
    unfold parsePriceString
    simp [hs, hf]
  · intro h
    unfold isRounded2 round2 at h
    rw [round_eq] at h
    norm_num at h

/-- C2 (amended): both parsers return `null` exactly when the input strips
to the empty string; when the stripped string starts with a well-formed
numeral, `parsePrice` returns the parsed value rounded to exactly 2 decimal
places and non-negative, while `parsePriceString` returns the parsed value
non-negative but unrounded; when the stripped string is non-empty but has
no leading numeral (e.g. `"..5"`), both return `NaN`. -/
theorem price_parser_contract (v : String) :
    (stripNonPrice v = "" → parsePrice v = PriceResult.null ∧ parsePriceString v = PriceResult.null) ∧
    (∀ q, parseFloatQ (stripNonPrice v) = some q →
      parsePrice v = PriceResult.num (round2 q) ∧
      parsePriceString v = PriceResult.num q ∧
      0 ≤ q ∧ 0 ≤ round2 q ∧ isRounded2 (round2 q)) ∧
    (stripNonPrice v ≠ "" → parseFloatQ (stripNonPrice v) = none →
      parsePrice v = PriceResult.nan ∧ parsePriceString v = PriceResult.nan) := by
  refine ⟨?_, ?_, ?_⟩
  · intro h
    constructor
    · unfold parsePrice
      by_cases hv : v = ""
      · simp [hv]
      · simp [hv, h]
    · unfold parsePriceString
      simp [h]
  · intro q hq
    have hne : stripNonPrice v ≠ "" := by
      intro h0
      rw [h0] at hq
      have hnone : parseFloatQ "" = none := by decide
      rw [hnone] at hq
      exact Option.noConfusion hq
    have hv : v ≠ "" := by
      intro h0
      subst h0
      exact hne (by decide)
    refine ⟨?_, ?_, parseFloatQ_nonneg _ _ hq,
      round2_nonneg _ (parseFloatQ_nonneg _ _ hq), round2_round2 q⟩
    · unfold parsePrice
      simp [hv, hne, hq]
    · unfold parsePriceString
      simp [hne, hq]
  · intro hne hnone
    have hv : v ≠ "" := by
      intro h0
      subst h0
      exact hne (by decide)
    constructor
    · unfold parsePrice
      simp [hv, hne, hnone]
    · unfold parsePriceString
      simp [hne, hnone]

/-- Witness for C2: `"$14.99"` parses to 14.99 under both parsers, `"abc"`
gives `null`, and `"..5"` gives `NaN`. -/
theorem price_parser_contract_w :
    parsePrice "$14.99" = PriceResult.num (1499 / 100) ∧
    parsePriceString "$14.99" = PriceResult.num (1499 / 100) ∧
    parsePrice "abc" = PriceResult.null ∧
    parsePrice "..5" = PriceResult.nan := by
  have hs : stripNonPrice "$14.99" = "14.99" := by decide
  have hf : parseFloatQ (stripNonPrice "$14.99") = some (1499 / 100) := by
    rw [hs]
    simp +decide [parseFloatQ, natOfDigits]
    norm_num
  have h := (price_parser_contract "$14.99").2.1 (1499 / 100) hf
  have hr : round2 (1499 / 100 : ℚ) = 1499 / 100 := by
    unfold round2
    rw [round_eq]
    norm_num
  have h3 := (price_parser_contract "abc").1 (by decide)
  have h4 := (price_parser_contract "..5").2.2 (by decide) (by decide)
  exact ⟨by rw [h.1, hr], h.2.1, h3.1, h4.1⟩

/-- C9: for every trimmed non-empty identifier absent from the registry,
`scrapeProducts`' source resolution raises a configuration error whose
message enumerates all valid source identifiers; for every identifier
present, the registry lookup returns its (unique) `SourceDefinition`. -/
theorem source_registry_lookup (s : String) (htrim : jsTrim s = s) (hne : s ≠ "") :
    ((∀ d, d ∈ SOURCE_DEFINITIONS → d.id ≠ s) →
      resolveSource (some s) =
        Except.error ("Unknown source \"" ++ s ++ "\". Available sources: " ++
          "amazon-search, amazon-tech, amazon-fashion, ebay-deals, fashion-api-mens, fashion-api-womens")) ∧
    (∀ d, d ∈ SOURCE_DEFINITIONS → d.id = s → getSourceDefinition s = some d) := by
  constructor
  · intro hnone
    have hid : resolveSourceId (some s) = s := by
      unfold resolveSourceId
      simp [hne, htrim]
    have hfind : getSourceDefinition s = none := by
      unfold getSourceDefinition
      rw [List.find?_eq_none]
      intro d hd
      simp [hnone d hd]
    have hchoices :
        String.intercalate ", " (listSources.map (fun entry => entry.id)) =
          "amazon-search, amazon-tech, amazon-fashion, ebay-deals, fashion-api-mens, fashion-api-womens" := by
      decide
    unfold resolveSource
    simp only [hid, hfind]
    rw [hchoices]
  · intro d hd hid
    rw [← hid]
    fin_cases hd <;> decide

/-- Witness for C9: the unknown identifier `"bogus-source"` produces the
enumerating configuration error, and a known identifier resolves to its
definition. -/
theorem source_registry_lookup_w :
    resolveSource (some "bogus-source") =
      Except.error "Unknown source \"bogus-source\". Available sources: amazon-search, amazon-tech, amazon-fashion, ebay-deals, fashion-api-mens, fashion-api-womens" ∧
    getSourceDefinition "ebay-deals" =
      some { id := "ebay-deals", label := "eBay Daily Deals", type := "html",
             url := some "https://www.ebay.com/globaldeals" } := by
  constructor
  · have h := (source_registry_lookup "bogus-source" (by decide) (by decide)).1 (by decide)
    rw [h]
    simp only [Except.error.injEq]
    decide
  · exact (source_registry_lookup "ebay-deals" (by decide) (by decide)).2
      { id := "ebay-deals", label := "eBay Daily Deals", type := "html",
        url := some "https://www.ebay.com/globaldeals" } (by decide) rfl

/-- C1 counterexample: a record whose price is present but zero and whose
original price is 5 reaches the normalizer with `is-discounted = false`,
although both price fields are present and before-discount strictly exceeds
price — refuting the claimed "present" biconditional. -/
theorem discount_flag_counter :
    ¬(((formatProductRecord (predefinedToRaw c1Bad "Label")).isDiscounted = true) ↔
      (c1Bad.price.isSome = true ∧ c1Bad.originalPrice.isSome = true ∧
        c1Bad.price.getD 0 < c1Bad.originalPrice.getD 0)) := by
  intro h
  have h1 : (formatProductRecord (predefinedToRaw c1Bad "Label")).isDiscounted = false := by
    decide
  have h2 : c1Bad.price.isSome = true ∧ c1Bad.originalPrice.isSome = true ∧
      c1Bad.price.getD 0 < c1Bad.originalPrice.getD 0 := by
    refine ⟨rfl, rfl, ?_⟩
    show (0 : ℚ) < 5
    norm_num
  rw [h.mpr h2] at h1
  exact Bool.noConfusion h1

/-- C1 (amended): for every record flowing through `scrapePredefinedSource`
into the normalizer, the output `is-discounted` flag is true iff both price
fields are present *and non-zero* and before-discount strictly exceeds
price, and `savings` equals `before − price` rounded to 2 decimals exactly
when `is-discounted` is true, else 0 — so `savings` is always consistent
with `is-discounted` and the two price fields. -/
theorem discount_flag_savings_consistency (record : ParsedRecord) (lbl : String) :
    ((formatProductRecord (predefinedToRaw record lbl)).isDiscounted = true ↔
      (truthyNum record.price = true ∧ truthyNum record.originalPrice = true ∧
        record.price.getD 0 < record.originalPrice.getD 0)) ∧
    (formatProductRecord (predefinedToRaw record lbl)).savings =
      (if (formatProductRecord (predefinedToRaw record lbl)).isDiscounted then
        round2 (record.originalPrice.getD 0 - record.price.getD 0)
      else 0) := by
  cases hp : truthyNum record.price <;> cases ho : truthyNum record.originalPrice <;>
    by_cases hlt : record.price.getD 0 < record.originalPrice.getD 0 <;>
      simp [formatProductRecord, predefinedToRaw, hp, ho, hlt]

/-- C5: for every feed item, a positive discount percentage `d` derives the
original price `price / (1 − d/100)` (which at `d = 100` is the JS division
by zero: `Infinity` for a positive price, and the item is then kept); an
absent or non-positive discount derives `price × 1.25`; items whose price
is zero/absent, whose derived original price is falsy (0 or `NaN`), or
whose derived original price does not strictly exceed the price are
discarded; kept items carry the derived original price (the `server.js`
copy stores it rounded to 2 decimals). -/
theorem feed_extractor_contract (item : FeedItem) (label : String) :
    (item.price = none → parseDummyItem label item = none ∧ serverParseDummyItem label item = none) ∧
    (∀ p, item.price = some p →
      (0 < item.discountPercentage.getD 0 → 1 - item.discountPercentage.getD 0 / 100 ≠ 0 →
        impliedOriginalPrice p (item.discountPercentage.getD 0) =
          JsNum.num (p / (1 - item.discountPercentage.getD 0 / 100))) ∧
      (¬ 0 < item.discountPercentage.getD 0 →
        impliedOriginalPrice p (item.discountPercentage.getD 0) = JsNum.num (p * (5 / 4))) ∧
      (0 < item.discountPercentage.getD 0 → 1 - item.discountPercentage.getD 0 / 100 = 0 →
        0 < p → impliedOriginalPrice p (item.discountPercentage.getD 0) = JsNum.posInf) ∧
      ((p = 0 ∨ jsNumTruthy (impliedOriginalPrice p (item.discountPercentage.getD 0)) = false ∨
          jsLeQ (impliedOriginalPrice p (item.discountPercentage.getD 0)) p = true) →
        parseDummyItem label item = none ∧ serverParseDummyItem label item = none) ∧
      (p ≠ 0 → jsNumTruthy (impliedOriginalPrice p (item.discountPercentage.getD 0)) = true →
        jsLeQ (impliedOriginalPrice p (item.discountPercentage.getD 0)) p = false →
        (∃ r, parseDummyItem label item = some r ∧ r.price = p ∧
          r.originalPrice = impliedOriginalPrice p (item.discountPercentage.getD 0)) ∧
        (∃ r, serverParseDummyItem label item = some r ∧ r.price = p ∧
          r.originalPrice =
            jsRound2 (impliedOriginalPrice p (item.discountPercentage.getD 0))))) := by
  refine ⟨?_, ?_⟩
  · intro hnone
    unfold parseDummyItem serverParseDummyItem
    rw [hnone]
    exact ⟨rfl, rfl⟩
  · intro p hp
    refine ⟨?_, ?_, ?_, ?_, ?_⟩
    · intro hd hnz
      unfold impliedOriginalPrice
      rw [if_pos hd, if_neg hnz]
    · intro hd
      unfold impliedOriginalPrice
      rw [if_neg hd]
    · intro hd hz hpp
      unfold impliedOriginalPrice
      rw [if_pos hd, if_pos hz, if_pos hpp]
    · intro hdisc
      constructor
      · unfold parseDummyItem
        rw [hp]
        exact if_pos hdisc
      · unfold serverParseDummyItem
        rw [hp]
        exact if_pos hdisc
    · intro hp0 ht hle
      have hcond : ¬(p = 0 ∨
          jsNumTruthy (impliedOriginalPrice p (item.discountPercentage.getD 0)) = false ∨
          jsLeQ (impliedOriginalPrice p (item.discountPercentage.getD 0)) p = true) := by
        push_neg
        refine ⟨hp0, ?_, ?_⟩
        · rw [ht]
          simp
        · rw [hle]
          simp
      constructor
      · have hEq : parseDummyItem label item =
            some { id := toString item.id, title := item.title,
                   url := "https://dummyjson.com/products/" ++ toString item.id,
                   price := p,
                   originalPrice := impliedOriginalPrice p (item.discountPercentage.getD 0),
                   thumbnail := item.thumbnail,
                   shortDescription := item.description.getD "",
                   source := label } := by
          unfold parseDummyItem
          rw [hp]
          exact if_neg hcond
        exact ⟨_, hEq, rfl, rfl⟩
      · have hEq : serverParseDummyItem label item =
            some { title := item.title,
                   url := "https://dummyjson.com/products/" ++ toString item.id,
                   price := p,
                   originalPrice :=
                     jsRound2 (impliedOriginalPrice p (item.discountPercentage.getD 0)),
                   source := label } := by
          unfold serverParseDummyItem
          rw [hp]
          exact if_neg hcond
        exact ⟨_, hEq, rfl, rfl⟩

/-- Witness for C5: `{price:80, discountPercentage:20}` derives original
price 100 and is kept; `{price:0}` is discarded; `{price:10,
discountPercentage:100}` derives `Infinity` and is kept. -/
theorem feed_extractor_contract_w :
    (∃ r, parseDummyItem "Feed" feedItemA = some r ∧ r.price = 80 ∧
      r.originalPrice = JsNum.num 100) ∧
    parseDummyItem "Feed" feedItemZero = none ∧
    (∃ r, parseDummyItem "Feed" feedItem100 = some r ∧
      r.originalPrice = JsNum.posInf) := by
  have horig : impliedOriginalPrice 80 (feedItemA.discountPercentage.getD 0) = JsNum.num 100 := by
    have h := (((feed_extractor_contract feedItemA "Feed").2 80 rfl).1)
      (by norm_num [feedItemA]) (by norm_num [feedItemA])
    rw [h]
    norm_num [feedItemA]
  have h100 : impliedOriginalPrice 10 (feedItem100.discountPercentage.getD 0) = JsNum.posInf :=
    ((feed_extractor_contract feedItem100 "Feed").2 10 rfl).2.2.1
      (by norm_num [feedItem100]) (by norm_num [feedItem100]) (by norm_num)
  refine ⟨?_, ?_, ?_⟩
  · have h := (((feed_extractor_contract feedItemA "Feed").2 80 rfl).2.2.2.2
      (by norm_num) (by rw [horig]; rfl) (by rw [horig]; simp [jsLeQ]; norm_num)).1
    obtain ⟨r, hr, hrp, hro⟩ := h
    exact ⟨r, hr, hrp, by rw [hro, horig]⟩
  · exact (((feed_extractor_contract feedItemZero "Feed").2 0 rfl).2.2.2.1 (Or.inl rfl)).1
  · have h := (((feed_extractor_contract feedItem100 "Feed").2 10 rfl).2.2.2.2
      (by norm_num) (by rw [h100]; rfl) (by rw [h100]; rfl)).1
    obtain ⟨r, hr, _, hro⟩ := h
    exact ⟨r, hr, by rw [hro, h100]⟩

/-- C6 counterexample: a failing item that already carries a
srcset-derived high-res image keeps that image — `product.highResImage ||
product.thumbnail` — rather than reverting to its original thumbnail,
refuting the claim's "returned with its original thumbnail as its high-res
image". -/
theorem enrichment_thumbnail_counter :
    (enrichOne (fun _ => Except.error "boom") sampleItemHi).highResImage =
      some "srcset-hi.jpg" ∧
    (enrichOne (fun _ => Except.error "boom") sampleItemHi).highResImage ≠
      some sampleItemHi.thumbnail := by
  decide

/-- C6 (amended): the detail-enrichment stage is an order-preserving batch
(result position `i` always corresponds to input item `i`) and a per-item
fetch/parse failure does not abort it: the failing item gets
`product.highResImage || product.thumbnail` as its high-res image (its
original thumbnail only when no truthy high-res image was already
present), an empty full description, retains its short description, and
records the failure reason. -/
theorem enrichment_order_and_recovery (fetchDetail : AmazonItem → Except String DetailData)
    (products : List AmazonItem) :
    (enrichWithDetails fetchDetail products).length = products.length ∧
    (∀ i (h : i < products.length) (h2 : i < (enrichWithDetails fetchDetail products).length),
      (enrichWithDetails fetchDetail products).get ⟨i, h2⟩ =
        enrichOne fetchDetail (products.get ⟨i, h⟩)) ∧
    (∀ p msg, fetchDetail p = Except.error msg →
      enrichOne fetchDetail p =
        { p with
          shortDescription := p.shortDescription
          fullDescription := some ""
          highResImage :=
            if jsStrTruthy p.highResImage then p.highResImage else some p.thumbnail
          detailError := some msg }) := by
  refine ⟨List.length_map _ _, ?_, ?_⟩
  · intro i h h2
    simp [enrichWithDetails]
  · intro p msg herr
    unfold enrichOne
    rw [herr]

/-- Witness for C6: a batch of one item whose detail fetch throws `"boom"`
still returns that item, with its thumbnail as high-res image, an empty
full description and the failure reason attached. -/
theorem enrichment_order_and_recovery_w :
    (enrichWithDetails (fun _ => Except.error "boom") [sampleItem]).get ⟨0, by decide⟩ =
      enrichOne (fun _ => Except.error "boom") sampleItem ∧
    enrichOne (fun _ => Except.error "boom") sampleItem =
      { sampleItem with
        fullDescription := some ""
        highResImage := some "thumb.jpg"
        detailError := some "boom" } := by
  constructor
  · exact (enrichment_order_and_recovery (fun _ => Except.error "boom") [sampleItem]).2.1 0
      (by decide) (by decide)
  · have h := (enrichment_order_and_recovery (fun _ => Except.error "boom") [sampleItem]).2.2
      sampleItem "boom" rfl
    rw [h]
    decide

lemma handleParsed_content (payload : JsonValue) (rawBody c : String)
    (h : contentString payload = some c) : handleParsed payload rawBody = c := by
  have hobj : jsTruthy payload = true := by
    unfold contentString contentField at h
    cases payload <;> simp_all [jsTruthy]
  unfold handleParsed
  simp [hobj, h]

/-- C4: the fetch gateway returns the string `content` field when the
trimmed body starts with `\x7b` or `[` and parses as JSON carrying one;
returns a raw-markup body (not starting with `\x7b` or `[`) unchanged; and
silently falls back to the raw body when an ambiguous body fails to parse
as JSON. -/
theorem gateway_body_normalization (jsonParse : String → Option JsonValue) (rawBody : String) :
    (jsTrim rawBody ≠ "" →
      headIs (jsTrim rawBody) '\x7b' = false → headIs (jsTrim rawBody) '[' = false →
      normalizeBody jsonParse rawBody = Except.ok rawBody) ∧
    ((headIs (jsTrim rawBody) '\x7b' || headIs (jsTrim rawBody) '[') = true →
      ∀ payload c, jsonParse (jsTrim rawBody) = some payload → contentString payload = some c →
        normalizeBody jsonParse rawBody = Except.ok c) ∧
    ((headIs (jsTrim rawBody) '\x7b' || headIs (jsTrim rawBody) '[') = true →
      jsonParse (jsTrim rawBody) = none → normalizeBody jsonParse rawBody = Except.ok rawBody) := by
  have hne_of_starts : (headIs (jsTrim rawBody) '\x7b' || headIs (jsTrim rawBody) '[') = true →
      jsTrim rawBody ≠ "" := by
    intro hs h0
    rw [h0] at hs
    exact absurd hs (by decide)
  refine ⟨?_, ?_, ?_⟩
  · intro hne hb1 hb2
    unfold normalizeBody
    simp [hne, hb1, hb2]
  · intro hs payload c hparse hcontent
    unfold normalizeBody
    simp [hne_of_starts hs, hs, hparse, handleParsed_content payload rawBody c hcontent]
  · intro hs hparse
    unfold normalizeBody
    simp [hne_of_starts hs, hs, hparse]

/-- Witness for C4: a JSON envelope body yields its inner markup, a raw
markup body is returned verbatim, and the malformed body `"\x7bnot json"`
falls back to itself. -/
theorem gateway_body_normalization_w :
    normalizeBody sampleParse "\x7b\"content\":\"<html></html>\"\x7d" =
      Except.ok "<html></html>" ∧
    normalizeBody sampleParse "<html>hi</html>" = Except.ok "<html>hi</html>" ∧
    normalizeBody sampleParse "\x7bnot json" = Except.ok "\x7bnot json" := by
  refine ⟨?_, ?_, ?_⟩
  · exact (gateway_body_normalization sampleParse "\x7b\"content\":\"<html></html>\"\x7d").2.1
      (by decide) (JsonValue.obj [("content", JsonValue.str "<html></html>")]) "<html></html>"
      rfl rfl
  · exact (gateway_body_normalization sampleParse "<html>hi</html>").1
      (by decide) (by decide) (by decide)
  · exact (gateway_body_normalization sampleParse "\x7bnot json").2.2 (by decide) rfl

lemma evaluateDeal_some (d : DealInput) :
    evaluateDeal (some d) =
      if (truthyNum d.price && truthyNum d.originalPrice &&
          decide (d.price.getD 0 < d.originalPrice.getD 0)) = true then
        some { source := d.source, title := d.title, price := d.price,
               originalPrice := d.originalPrice,
               roi := round2 ((d.originalPrice.getD 0 - d.price.getD 0) / d.price.getD 0),
               potentialProfit := some (round2 (d.originalPrice.getD 0 - d.price.getD 0)),
               url := d.url, note := none, error := false }
      else none := rfl

lemma evaluateDeal_some_shape (x : Option DealInput) (r : Deal)
    (h : evaluateDeal x = some r) : r.error = false := by
  cases x with
  | none => exact Option.noConfusion h
  | some d =>
    rw [evaluateDeal_some] at h
    split_ifs at h
    simp only [Option.some.injEq] at h
    rw [← h]

lemma mem_sourceDeals_ok (minRoi : ℚ) (src : ServerSource) (parsed : List DealInput)
    (deal : Deal) (h : deal ∈ sourceDeals minRoi src (Except.ok parsed)) :
    minRoi ≤ deal.roi ∧ deal.error = false := by
  unfold sourceDeals at h
  rw [List.mem_filter] at h
  obtain ⟨hmem, hroi⟩ := h
  rw [List.mem_filterMap] at hmem
  obtain ⟨o, ho, hid⟩ := hmem
  rw [List.mem_map] at ho
  obtain ⟨d, _, rfl⟩ := ho
  simp only [id_eq] at hid
  exact ⟨by simpa using hroi, evaluateDeal_some_shape _ _ hid⟩

lemma mem_apiDeals_iff (minRoi : ℚ)
    (outcomes : List (ServerSource × Except String (List DealInput))) (deal : Deal) :
    deal ∈ apiDeals minRoi outcomes ↔
      ∃ pr ∈ outcomes, deal ∈ sourceDeals minRoi pr.1 pr.2 := by
  unfold apiDeals
  rw [List.mem_insertionSort]
  constructor
  · intro hm
    rw [List.mem_flatten] at hm
    obtain ⟨l, hl, hdl⟩ := hm
    rw [List.mem_map] at hl
    obtain ⟨pr, hpr, rfl⟩ := hl
    exact ⟨pr, hpr, hdl⟩
  · rintro ⟨pr, hpr, hdl⟩
    rw [List.mem_flatten]
    exact ⟨_, List.mem_map_of_mem _ hpr, hdl⟩

lemma apiDeals_error_roi_zero (minRoi : ℚ)
    (outcomes : List (ServerSource × Except String (List DealInput))) (deal : Deal)
    (h : deal ∈ apiDeals minRoi outcomes) (herr : deal.error = true) : deal.roi = 0 := by
  rw [mem_apiDeals_iff] at h
  obtain ⟨⟨s2, outcome⟩, _, hd⟩ := h
  cases outcome with
  | ok parsed =>
    have hfalse := (mem_sourceDeals_ok _ _ _ _ hd).2
    rw [herr] at hfalse
    exact Bool.noConfusion hfalse
  | error e2 =>
    simp only [sourceDeals, List.mem_singleton] at hd
    rw [hd]
    rfl

/-- C8: `evaluateDeal` returns `null` whenever price or original price is
missing/zero or the original does not strictly exceed the price; otherwise
it augments the record with `roi = (original − price)/price` and
`potentialProfit = original − price`, both rounded to 2 decimals; each
source's evaluated deal list is filtered to `roi ≥ minRoi`, and the
aggregated response is sorted by descending ROI. -/
theorem deal_pipeline_contract (d : DealInput) (minRoi : ℚ) (src : ServerSource)
    (parsed : List DealInput)
    (outcomes : List (ServerSource × Except String (List DealInput))) :
    ((truthyNum d.price = false ∨ truthyNum d.originalPrice = false ∨
        d.originalPrice.getD 0 ≤ d.price.getD 0) → evaluateDeal (some d) = none) ∧
    (∀ p o, d.price = some p → d.originalPrice = some o → p ≠ 0 → o ≠ 0 → p < o →
      evaluateDeal (some d) =
        some { source := d.source, title := d.title, price := some p, originalPrice := some o,
               roi := round2 ((o - p) / p), potentialProfit := some (round2 (o - p)),
               url := d.url, note := none, error := false }) ∧
    (∀ deal, deal ∈ sourceDeals minRoi src (Except.ok parsed) →
      minRoi ≤ deal.roi ∧ deal.error = false) ∧
    List.Sorted roiGE (apiDeals minRoi outcomes) := by
  refine ⟨?_, ?_, fun deal h => mem_sourceDeals_ok minRoi src parsed deal h,
    List.sorted_insertionSort roiGE _⟩
  · intro h
    rw [evaluateDeal_some]
    have hc : (truthyNum d.price && truthyNum d.originalPrice &&
        decide (d.price.getD 0 < d.originalPrice.getD 0)) = false := by
      rcases h with h | h | h
      · simp [h]
      · simp [h]
      · have h3 := not_lt.mpr h
        simp [h3]
    rw [hc]
    simp
  · intro p o hp ho hp0 ho0 hlt
    rw [evaluateDeal_some, hp, ho]
    have hc : (truthyNum (some p) && truthyNum (some o) &&
        decide ((some p).getD 0 < (some o).getD 0)) = true := by
      simp [truthyNum, hp0, ho0, hlt]
    rw [hc]
    simp

/-- Witness for C8: the deal (price 80, original 100) is kept with
roi = 0.25 and potential profit 20; a zero price yields `null`. -/
theorem deal_pipeline_contract_w :
    evaluateDeal (some dealEighty) =
      some { source := "s", title := "g", price := some 80, originalPrice := some 100,
             roi := 1 / 4, potentialProfit := some 20, url := none, note := none,
             error := false } ∧
    evaluateDeal (some dealZeroPrice) = none := by
  constructor
  · have h := (deal_pipeline_contract dealEighty 0 srcDown [] []).2.1 80 100 rfl rfl
      (by norm_num) (by norm_num) (by norm_num)
    rw [h]
    have h1 : round2 ((100 - 80) / 80 : ℚ) = 1 / 4 := by
      unfold round2
      rw [round_eq]
      norm_num
    have h2 : round2 ((100 : ℚ) - 80) = 20 := by
      unfold round2
      rw [round_eq]
      norm_num
    rw [h1, h2]
    rfl
  · exact (deal_pipeline_contract dealZeroPrice 0 srcDown [] []).1 (Or.inl (by decide))

/-- C10: the `Feed unavailable` placeholder produced for a failing source
carries `roi = 0` and joins the response without passing the minimum-ROI
filter: for any positive `minRoi` it is still present while every ordinary
(non-error) deal in the response satisfies `roi ≥ minRoi`, and under the
descending-ROI order no placeholder can precede an ordinary deal. -/
theorem placeholder_bypasses_roi_filter (minRoi : ℚ)
    (outcomes : List (ServerSource × Except String (List DealInput)))
    (src : ServerSource) (e : String)
    (hpos : 0 < minRoi) (hmem : (src, Except.error e) ∈ outcomes) :
    placeholderDeal src ∈ apiDeals minRoi outcomes ∧
    (placeholderDeal src).roi = 0 ∧
    (∀ deal, deal ∈ apiDeals minRoi outcomes → deal.error = false → minRoi ≤ deal.roi) ∧
    (∀ i j (hi : i < (apiDeals minRoi outcomes).length)
        (hj : j < (apiDeals minRoi outcomes).length), i < j →
      ((apiDeals minRoi outcomes).get ⟨i, hi⟩).error = true →
      ((apiDeals minRoi outcomes).get ⟨j, hj⟩).error = false → False) := by
  have hmem2 : placeholderDeal src ∈ apiDeals minRoi outcomes := by
    rw [mem_apiDeals_iff]
    exact ⟨(src, Except.error e), hmem, by simp [sourceDeals]⟩
  have hfilter : ∀ deal, deal ∈ apiDeals minRoi outcomes → deal.error = false →
      minRoi ≤ deal.roi := by
    intro deal hdeal herr
    rw [mem_apiDeals_iff] at hdeal
    obtain ⟨⟨s2, outcome⟩, _, hd⟩ := hdeal
    cases outcome with
    | ok parsed => exact (mem_sourceDeals_ok _ _ _ _ hd).1
    | error e2 =>
      simp only [sourceDeals, List.mem_singleton] at hd
      rw [hd] at herr
      simp [placeholderDeal] at herr
  refine ⟨hmem2, rfl, hfilter, ?_⟩
  intro i j hi hj hij herri herrj
  have hsorted : List.Sorted roiGE (apiDeals minRoi outcomes) :=
    List.sorted_insertionSort roiGE _
  have hrel : ((apiDeals minRoi outcomes).get ⟨j, hj⟩).roi ≤
      ((apiDeals minRoi outcomes).get ⟨i, hi⟩).roi :=
    List.Sorted.rel_get_of_lt hsorted hij
  have hroi_i : ((apiDeals minRoi outcomes).get ⟨i, hi⟩).roi = 0 :=
    apiDeals_error_roi_zero _ _ _ (List.get_mem _ _ _) herri
  have hroi_j : minRoi ≤ ((apiDeals minRoi outcomes).get ⟨j, hj⟩).roi :=
    hfilter _ (List.get_mem _ _ _) herrj
  rw [hroi_i] at hrel
  linarith

/-- Witness for C10: with `minRoi = 1/2` and a single failing source, the
placeholder is in the response with `roi = 0`. -/
theorem placeholder_bypasses_roi_filter_w :
    placeholderDeal srcDown ∈ apiDeals (1 / 2) [(srcDown, Except.error "down")] ∧
    (placeholderDeal srcDown).roi = 0 := by
  have h := placeholder_bypasses_roi_filter (1 / 2) [(srcDown, Except.error "down")]
    srcDown "down" (by norm_num) (List.mem_singleton.mpr rfl)
  exact ⟨h.1, h.2.1⟩

lemma crawlFrom_reaches_empty {α : Type} (pages : Nat → List α) (target k : Nat) :
    ∀ fuel page (collected : List α), page ≤ k → k ≤ MAX_PAGES → k ≤ page + fuel →
      pages k = [] →
      (∀ j, page ≤ j → j < k → pages j ≠ []) →
      collected.length + (unionFrom pages page (k - page)).length < target →
      crawlFrom pages target fuel page collected = collected ++ unionFrom pages page (k - page) := by
  intro fuel
  induction fuel with
  | zero =>
    intro page collected hpk hk20 hfuel hempty hnonempty hlen
    have hp : page = k := le_antisymm hpk (by omega)
    subst hp
    rw [Nat.sub_self]
    simp [crawlFrom, unionFrom]
  | succ fuel ih =>
    intro page collected hpk hk20 hfuel hempty hnonempty hlen
    by_cases hpage : page = k
    · subst hpage
      rw [Nat.sub_self] at hlen ⊢
      have hlen2 : collected.length < target := by
        simpa [unionFrom] using hlen
      unfold crawlFrom
      rw [if_pos ⟨hlen2, hk20⟩, if_pos (by simp [hempty])]
      simp [unionFrom]
    · have hpk2 : page < k := lt_of_le_of_ne hpk hpage
      have hne : pages page ≠ [] := hnonempty page le_rfl hpk2
      have hsplit : unionFrom pages page (k - page) =
          pages page ++ unionFrom pages (page + 1) (k - (page + 1)) := by
        have h1 : k - page = (k - (page + 1)) + 1 := by omega
        rw [h1]
        rfl
      rw [hsplit] at hlen ⊢
      rw [List.length_append] at hlen
      have hlen2 : collected.length < target := by omega
      have htake : (pages page).take (target - collected.length) = pages page := by
        apply List.take_of_length_le
        omega
      unfold crawlFrom
      rw [if_pos ⟨hlen2, le_trans (le_of_lt hpk2) hk20⟩,
        if_neg (by simpa [List.isEmpty_iff] using hne), htake]
      rw [ih (page + 1) (collected ++ pages page) hpk2 hk20 (by omega) hempty
        (fun j hj1 hj2 => hnonempty j (by omega) hj2)
        (by rw [List.length_append]; omega)]
      rw [List.append_assoc]

/-- C3: in the pagination controller, when the crawl reaches a page `k`
(within the 20-page ceiling, still under target) that yields zero records,
iteration stops there and the union of the records of pages `1..k-1` is
returned without error — unless that union is empty (i.e. `k = 1`, zero
records collected overall), in which case the controller raises the fatal
"no products parsed" error. -/
theorem pagination_stops_on_empty_page (pages : Nat → List Nat) (target k : Nat)
    (hk1 : 1 ≤ k) (hk20 : k ≤ MAX_PAGES) (hempty : pages k = [])
    (hnonempty : ∀ j, 1 ≤ j → j < k → pages j ≠ [])
    (hunder : (unionFrom pages 1 (k - 1)).length < target) :
    scrapeAmazonCrawl pages target =
      if k = 1 then Except.error "No products were parsed from the Amazon response"
      else Except.ok (unionFrom pages 1 (k - 1)) := by
  have hcrawl : crawlFrom pages target (MAX_PAGES + 1) 1 [] = unionFrom pages 1 (k - 1) := by
    have h := crawlFrom_reaches_empty pages target k (MAX_PAGES + 1) 1 [] hk1 hk20 (by omega)
      hempty hnonempty (by simpa using hunder)
    simpa using h
  unfold scrapeAmazonCrawl
  rw [hcrawl]
  by_cases hk : k = 1
  · subst hk
    simp [unionFrom]
  · have hne : unionFrom pages 1 (k - 1) ≠ [] := by
      have h1 : k - 1 = (k - 2) + 1 := by omega
      rw [h1]
      intro hcontra
      rw [show unionFrom pages 1 ((k - 2) + 1) = pages 1 ++ unionFrom pages 2 (k - 2) from rfl]
        at hcontra
      rw [List.append_eq_nil] at hcontra
      exact hnonempty 1 le_rfl (by omega) hcontra.1
    rw [if_neg (by simpa [List.isEmpty_iff] using hne), if_neg hk]

/-- Witness for C3: a feed whose page 1 holds one record and page 2 is
empty, with a target of 5, returns that single record without error. -/
theorem pagination_stops_on_empty_page_w :
    scrapeAmazonCrawl onePageFeed 5 = Except.ok [7] := by
  have h := pagination_stops_on_empty_page onePageFeed 5 2 (by omega) (by decide) (by decide)
    (fun j hj1 hj2 => by
      have hj : j = 1 := by omega
      subst hj
      decide)
    (by decide)
  rw [h]
  simp [unionFrom, onePageFeed]
